import Mathlib

/-!
Shallow embedding of the "true user" k6 load-test scenario of the
chunky-k6-loadtests repository (`loadtests/true_user.js`, shipped as
`src/unnamed/part_000`; `src/true_user.js` is an earlier revision of the
same scenario).  The embedding covers the feed cursor / item-id
extractors, the per-endpoint metrics accumulator, the summary-table
formatting helpers, the credential helpers `doLogin` / `doUsersMe`, and
the per-iteration session flow through step 3 (guest read, auth
bootstrap, authenticated user-teams reads).  HTTP is modelled as a
deterministic environment mapping request URLs to responses, and the
`Math.random()` stream as a function from draw index to a rational.
-/

namespace ChunkyLoad

/-- JS truthiness of an optional string value: missing, `null` and the
empty string are falsy; any other string is truthy. -/
def jsTruthyStr : Option String → Option String
  | none => none
  | some s => if s = "" then none else some s

/-- One feed item (a "lump").  The identifier fields are modelled after
the source's integer coercion (`typeof raw === "number" ? raw :
parseInt(String(raw), 10)`), so they are optional integers; the
timestamp fields are optional strings. -/
structure Lump where
  id : Option Int := none
  lump_id : Option Int := none
  updated_at : Option String := none
  created_at : Option String := none
deriving DecidableEq

/-- A parsed JSON response body, restricted to the fields the scenario
reads: the login token and the two tolerated feed-list fields. -/
structure Body where
  token : Option String := none
  lumps : Option (List Lump) := none
  top_lumps : Option (List Lump) := none
deriving DecidableEq

/-- A completed HTTP exchange: status code, parsed body (`none` when the
body does not parse as JSON), and the reported duration in ms. -/
structure Response where
  status : Int
  body : Option Body := none
  duration : ℚ := 0
deriving DecidableEq

/-- Per-item timestamp resolution of `extractAfterDateFromLumps`:
`const t = l?.updated_at || l?.created_at || null` followed by the
`if (!t) continue` guard, i.e. the first truthy of the two fields. -/
def lumpTimestamp (l : Lump) : Option String :=
  match jsTruthyStr l.updated_at with
  | some s => some s
  | none => jsTruthyStr l.created_at

/-- Loop body of `extractAfterDateFromLumps`:
`if (!newest || t > newest) newest = t`, skipping falsy timestamps
(JS `>` on strings is lexicographic, modelled by `<` on `String`). -/
def newestStep (newest : Option String) (l : Lump) : Option String :=
  match lumpTimestamp l with
  | none => newest
  | some t =>
    match newest with
    | none => some t
    | some n => if n < t then some t else some n

/-- `extractAfterDateFromLumps(respJson)` from the source: `null` unless
`respJson?.lumps` is a non-empty array, else the running lexical maximum
of the truthy per-item timestamps. -/
def extractAfterDateFromLumps (p : Body) : Option String :=
  match p.lumps with
  | none => none
  | some lumps =>
    if lumps.length = 0 then none else lumps.foldl newestStep none

/-- The candidate item list of `extractLumpIds`:
`(Array.isArray(respJson?.lumps) && respJson.lumps) ||
(Array.isArray(respJson?.top_lumps) && respJson.top_lumps) || []`.
Note an empty `lumps` array is truthy in JS, so a present (even empty)
`lumps` field shadows `top_lumps`. -/
def feedCandidates (p : Body) : List Lump :=
  match p.lumps with
  | some ls => ls
  | none =>
    match p.top_lumps with
    | some ts => ts
    | none => []

/-- `const raw = item?.id ?? item?.lump_id ?? null` (nullish coalescing:
`id` is preferred whenever it is present). -/
def rawId (l : Lump) : Option Int :=
  match l.id with
  | some v => some v
  | none => l.lump_id

/-- Loop body of `extractLumpIds`: skip items whose identifier is
missing, non-positive or already collected; push otherwise; after the
push, break once `out.length >= maxIds`. -/
def extractLumpIdsGo (maxIds : Nat) : List Lump → List Int → List Int
  | [], out => out
  | item :: rest, out =>
    match rawId item with
    | none => extractLumpIdsGo maxIds rest out
    | some idNum =>
      if idNum ≤ 0 then extractLumpIdsGo maxIds rest out
      else if idNum ∈ out then extractLumpIdsGo maxIds rest out
      else if maxIds ≤ out.length + 1 then out ++ [idNum]
      else extractLumpIdsGo maxIds rest (out ++ [idNum])

/-- `extractLumpIds(respJson, maxIds)` from the source. -/
def extractLumpIds (p : Body) (maxIds : Nat) : List Int :=
  let candidates := feedCandidates p
  if candidates.length = 0 then [] else extractLumpIdsGo maxIds candidates []

/-- Specification-side resolution of a per-item timestamp, following the
spec's words: `updatedAt` if present, else `createdAt`. -/
def resolvedTs (l : Lump) : Option String :=
  match l.updated_at with
  | some s => some s
  | none => l.created_at

/-- Specification-side valid identifiers of an item list, in encounter
order: the resolved identifier of each item, kept when positive. -/
def validIds (ls : List Lump) : List Int :=
  (ls.filterMap rawId).filter (fun n => 0 < n)

/-- Deduplication keeping first occurrences, with an explicit
already-seen accumulator. -/
def dedupFirstGo : List Int → List Int → List Int
  | [], _ => []
  | x :: xs, seen =>
    if x ∈ seen then dedupFirstGo xs seen
    else x :: dedupFirstGo xs (seen ++ [x])

/-- Specification-side deduplication keeping first occurrences. -/
def dedupFirst (l : List Int) : List Int := dedupFirstGo l []

/-- `failed = res.status < 200 || res.status >= 300` (`recordEndpoint`). -/
def isFailureStatus (s : Int) : Bool := s < 200 || 300 ≤ s

/-- One per-endpoint metric bucket: request counter, failure counter and
the duration sample distribution (`reqs` / `fails` / `dur` in `EP`). -/
structure EpBucket where
  reqs : Nat := 0
  fails : Nat := 0
  durs : List ℚ := []
deriving DecidableEq

/-- `recordEndpoint(epObj, res)`: add one request, append the duration
sample, add one failure iff the status is outside [200, 300). -/
def recordEndpoint (b : EpBucket) (res : Response) : EpBucket :=
  { reqs := b.reqs + 1
    fails := if isFailureStatus res.status then b.fails + 1 else b.fails
    durs := b.durs ++ [res.duration] }

/-- Two-digit zero padding for the fractional part of `toFixed`. -/
def pad2 (n : Int) : String := if n < 10 then "0" ++ toString n else toString n

/-- JS `x.toFixed(2)` for the non-negative rationals this scenario
formats (round half up to two decimals). -/
def toFixed2 (q : ℚ) : String :=
  let c : Int := ⌊q * 100 + 1 / 2⌋
  toString (c / 100) ++ "." ++ pad2 (c % 100)

/-- JS `x.toFixed(1)` for the non-negative rationals this scenario
formats (round half up to one decimal). -/
def toFixed1 (q : ℚ) : String :=
  let c : Int := ⌊q * 10 + 1 / 2⌋
  toString (c / 10) ++ "." ++ toString (c % 10)

/-- JS `Math.round`. -/
def jsRound (q : ℚ) : Int := ⌊q + 1 / 2⌋

/-- `fmtMs(x)`: "-" for `null`/non-finite, else one decimal plus "ms".
`none` models the absent/null/non-finite case. -/
def fmtMs : Option ℚ → String
  | none => "-"
  | some x => toFixed1 x ++ "ms"

/-- `fmtPct(x)`: "-" for `null`/non-finite, else `(x*100).toFixed(2)+"%"`. -/
def fmtPct : Option ℚ → String
  | none => "-"
  | some x => toFixed2 (x * 100) ++ "%"

/-- `fmtInt(x)`: "-" for `null`/non-finite, else `Math.round(x)`. -/
def fmtInt : Option ℚ → String
  | none => "-"
  | some x => toString (jsRound x)

/-- The `data.metrics` lookups `epRowFromData` performs for one endpoint
prefix; `none` models an absent metric / absent value. -/
structure EpMetricVals where
  reqs : Option ℚ := none
  fails : Option ℚ := none
  avg : Option ℚ := none
  p90 : Option ℚ := none
  p95 : Option ℚ := none
  max : Option ℚ := none
deriving DecidableEq

/-- One row of the custom summary table (sans the display name). -/
structure EpRow where
  reqs : ℚ
  fails : ℚ
  failRate : ℚ
  avg : Option ℚ
  p90 : Option ℚ
  p95 : Option ℚ
  max : Option ℚ
deriving DecidableEq

/-- `epRowFromData(data, name, prefix)`: counts default to 0 via `?? 0`,
duration stats stay `null` when absent, and
`failRate = reqs > 0 ? fails / reqs : 0`. -/
def epRowFromData (d : EpMetricVals) : EpRow :=
  let reqs := d.reqs.getD 0
  let fails := d.fails.getD 0
  { reqs := reqs
    fails := fails
    failRate := if 0 < reqs then fails / reqs else 0
    avg := d.avg
    p90 := d.p90
    p95 := d.p95
    max := d.max }

/-- The rendered cell texts of one summary row, in column order
(reqs, fails, fail%, avg, p90, p95, max), before `padStart` space
padding (`padStart` only prepends spaces, it never changes the text). -/
def epRowCells (r : EpRow) : List String :=
  [fmtInt (some r.reqs), fmtInt (some r.fails), fmtPct (some r.failRate),
   fmtMs r.avg, fmtMs r.p90, fmtMs r.p95, fmtMs r.max]

/-- The summary row of a bucket with no recorded data at all. -/
def zeroRow : EpRow :=
  { reqs := 0, fails := 0, failRate := 0, avg := none, p90 := none,
    p95 := none, max := none }

/-- Unreserved characters of JS `encodeURIComponent`:
`A-Z a-z 0-9 - _ . ! ~ * ' ( )`. -/
def isUnreservedURIChar (c : Char) : Bool :=
  (('A' ≤ c && c ≤ 'Z') || ('a' ≤ c && c ≤ 'z') || ('0' ≤ c && c ≤ '9')
    || c = '-' || c = '_' || c = '.' || c = '!' || c = '~' || c = '*'
    || c = '\'' || c = '(' || c = ')')

/-- Upper-case hexadecimal digit for `n < 16`. -/
def hexDigit (n : Nat) : Char :=
  if n < 10 then Char.ofNat (48 + n) else Char.ofNat (55 + n)

/-- One percent-encoded byte, e.g. `37` ↦ `"%25"`. -/
def pctByte (b : Nat) : String :=
  "%" ++ (hexDigit (b / 16)).toString ++ (hexDigit (b % 16)).toString

/-- UTF-8 bytes of one code point. -/
def utf8Bytes (c : Char) : List Nat :=
  let n := c.toNat
  if n < 128 then [n]
  else if n < 2048 then [192 + n / 64, 128 + n % 64]
  else if n < 65536 then [224 + n / 4096, 128 + n / 64 % 64, 128 + n % 64]
  else [240 + n / 262144, 128 + n / 4096 % 64, 128 + n / 64 % 64, 128 + n % 64]

/-- JS `encodeURIComponent`: unreserved characters kept, everything else
percent-encoded as UTF-8 bytes. -/
def encodeURIComponent (s : String) : String :=
  s.data.foldl
    (fun acc c =>
      acc ++ (if isUnreservedURIChar c then c.toString
              else String.join ((utf8Bytes c).map pctByte)))
    ""

/-- The logical endpoint names of the `EP` metrics map. -/
inductive EpName
  | latest | login | me | userTeams | teamFeed | gamesScreen | teamTop
  | summary | comments
deriving DecidableEq

/-- One observable event of an iteration: an HTTP request paired with
the `EP` bucket its call site records to (`none` for unrecorded calls),
or one `recordEndpoint` invocation. -/
inductive Ev
  | req (ep : Option EpName) (url : String)
  | record (ep : EpName)
deriving DecidableEq

/-- Run configuration: `BASE_URL`, `PROB_USERTEAMS_REFRESH_TWICE` and
`COMMENTS_PER_FEED` (the environment knobs the modelled flow reads). -/
structure Cfg where
  baseUrl : String
  probUserTeamsTwice : ℚ
  commentsPerFeed : Nat

def latestUrl (cfg : Cfg) : String := cfg.baseUrl ++ "/lumps/latest"

def loginUrl (cfg : Cfg) : String := cfg.baseUrl ++ "/users/login"

def meUrl (cfg : Cfg) : String := cfg.baseUrl ++ "/users/me"

def userTeamsUrl (cfg : Cfg) : String := cfg.baseUrl ++ "/lumps/user-teams"

/-- The user-teams URL with the derived cursor as `after_date` filter. -/
def userTeamsAfterUrl (cfg : Cfg) (cursor : String) : String :=
  userTeamsUrl cfg ++ "?after_date=" ++ encodeURIComponent cursor

def commentsUrl (cfg : Cfg) (lumpId : Int) : String :=
  cfg.baseUrl ++ "/comments/thread?lump_id=" ++ encodeURIComponent (toString lumpId)

/-- The HTTP environment: a deterministic server mapping each request
URL to its response. -/
def Env : Type := String → Response

/-- `hitCommentsThreads(lumpIds, ...)`: one recorded GET
`/comments/thread?lump_id=...` per extracted id, in order. -/
def hitCommentsThreads (cfg : Cfg) : List Int → List Ev
  | [] => []
  | i :: rest =>
    Ev.req (some EpName.comments) (commentsUrl cfg i) :: Ev.record EpName.comments ::
      hitCommentsThreads cfg rest

/-- Return value of `getFeedWithComments`:
`{ res, json, lumpIds, cursor }` (with `res` reduced to its status). -/
structure FeedResult where
  status : Int
  json : Option Body
  lumpIds : List Int
  cursor : Option String
deriving DecidableEq

/-- `getFeedWithComments(url, reqParams, feedLabel, epMetricObj)`: GET
the feed, record it, and only on status exactly 200 parse the body,
fan out to the comments threads and derive the cursor
(`extractAfterDateFromLumps(j) || null`). -/
def getFeedWithComments (env : Env) (cfg : Cfg) (url : String)
    (ep : Option EpName) : FeedResult × List Ev :=
  let res := env url
  let tr0 := Ev.req ep url :: (match ep with | some e => [Ev.record e] | none => [])
  if res.status = 200 then
    match res.body with
    | none => ({ status := res.status, json := none, lumpIds := [], cursor := none }, tr0)
    | some j =>
      let ids := extractLumpIds j cfg.commentsPerFeed
      ({ status := res.status, json := some j, lumpIds := ids,
         cursor := jsTruthyStr (extractAfterDateFromLumps j) },
       tr0 ++ hitCommentsThreads cfg ids)
  else ({ status := res.status, json := none, lumpIds := [], cursor := none }, tr0)

/-- The parsed-body token of a login response:
`loginRes.json()?.token || null`, `none` on parse failure. -/
def bodyToken (r : Response) : Option String :=
  match r.body with
  | none => none
  | some j => jsTruthyStr j.token

/-- The value `doLogin` returns for a given login response: the token
when the `"login 200"` check passes and the parsed body holds a truthy
token, else `null`. -/
def doLoginRes (r : Response) : Option String :=
  if r.status = 200 then bodyToken r else none

/-- `doLogin(email)`: one recorded POST to `/users/login`. -/
def doLogin (env : Env) (cfg : Cfg) : Option String × List Ev :=
  (doLoginRes (env (loginUrl cfg)),
   [Ev.req (some EpName.login) (loginUrl cfg), Ev.record EpName.login])

/-- The `{ ok, invalidToken }` signal `doUsersMe` returns. -/
structure MeResult where
  ok : Bool
  invalidToken : Bool
  status : Int
deriving DecidableEq

/-- The signal `doUsersMe` derives from the `/users/me` response:
`ok` iff status is exactly 200; `invalidToken` iff the check failed and
the status is 401 or 403. -/
def doUsersMeRes (r : Response) : MeResult :=
  if r.status ≠ 200 ∧ (r.status = 401 ∨ r.status = 403) then
    { ok := false, invalidToken := true, status := r.status }
  else
    { ok := decide (r.status = 200), invalidToken := false, status := r.status }

/-- `doUsersMe(token)`: one recorded GET to `/users/me`. -/
def doUsersMe (env : Env) (cfg : Cfg) : MeResult × List Ev :=
  (doUsersMeRes (env (meUrl cfg)),
   [Ev.req (some EpName.me) (meUrl cfg), Ev.record EpName.me])

/-- Outcome of one iteration (modelled through step 3): the `VU_TOKEN`
cache after the iteration, whether the iteration returned early, and the
ordered request/record trace. -/
structure IterOut where
  token : Option String
  aborted : Bool
  trace : List Ev
deriving DecidableEq

/-- The per-iteration flow from line 470 of the source on (the code
shared by the cached-token and the fresh-login path): the per-iteration
`/users/me` re-hydration probe, then step 3, the authenticated
user-teams read with its cursor repeats.  `ri` is the index of the next
`Math.random()` draw (each `jitterSleep` before this point consumed
one); the `doTwice` draw is made before the cursor test, exactly as in
the source.  `ut1.cursor` is never `some ""` (it went through
`jsTruthyStr`), so matching on it models the JS truthiness test. -/
def iterContinue (env : Env) (rand : Nat → ℚ) (cfg : Cfg) (tok : String)
    (tr : List Ev) (ri : Nat) : IterOut :=
  let meI := doUsersMe env cfg
  if (meI.1).invalidToken then
    { token := none, aborted := true, trace := tr ++ meI.2 }
  else
    let ut1 := getFeedWithComments env cfg (userTeamsUrl cfg) (some EpName.userTeams)
    let doTwice := rand ri < cfg.probUserTeamsTwice
    let tRep : List Ev :=
      match (ut1.1).cursor with
      | some c =>
        (getFeedWithComments env cfg (userTeamsAfterUrl cfg c) (some EpName.userTeams)).2 ++
          (if doTwice then
            (getFeedWithComments env cfg (userTeamsAfterUrl cfg c) (some EpName.userTeams)).2
           else [])
      | none => []
    { token := some tok, aborted := false, trace := tr ++ meI.2 ++ ut1.2 ++ tRep }

/-- One iteration of the `default` entry point, modelled through the end
of step 3 (step 4's team fan-out touches none of the endpoints or state
the claims concern).  `token0` is the `VU_TOKEN` cache at entry.  Rand
draw indices: the `jitterSleep` after `/lumps/latest` consumes draw 0;
on the fresh-login path the `jitterSleep` after login consumes draw 1,
so the `doTwice` draw is draw 1 on the cached-token path and draw 2 on
the fresh-login path. -/
def iterThroughStep3 (env : Env) (rand : Nat → ℚ) (cfg : Cfg)
    (token0 : Option String) : IterOut :=
  let f1 := getFeedWithComments env cfg (latestUrl cfg) (some EpName.latest)
  match jsTruthyStr token0 with
  | some tok => iterContinue env rand cfg tok f1.2 1
  | none =>
    let lg := doLogin env cfg
    match lg.1 with
    | none => { token := none, aborted := true, trace := f1.2 ++ lg.2 }
    | some tok =>
      let meA := doUsersMe env cfg
      if (meA.1).invalidToken then
        { token := none, aborted := true, trace := f1.2 ++ lg.2 ++ meA.2 }
      else iterContinue env rand cfg tok (f1.2 ++ lg.2 ++ meA.2) 2

/-- The URLs of the requests a trace issued against one logical
endpoint, in order. -/
def epReqUrls (e : EpName) (tr : List Ev) : List String :=
  tr.filterMap fun ev =>
    match ev with
    | Ev.req (some e2) u => if e2 = e then some u else none
    | _ => none

/-- The subsequence of endpoint names of a trace's auth-relevant
requests (login, who-am-I probe, user-teams feed), in order. -/
def authSeq (tr : List Ev) : List EpName :=
  tr.filterMap fun ev =>
    match ev with
    | Ev.req (some EpName.login) _ => some EpName.login
    | Ev.req (some EpName.me) _ => some EpName.me
    | Ev.req (some EpName.userTeams) _ => some EpName.userTeams
    | _ => none

/-- The draw index of the `doTwice` draw: draw 1 when the iteration
starts with a cached token, draw 2 on the fresh-login path (one extra
`jitterSleep` after login). -/
def doTwiceDrawIdx (token0 : Option String) : Nat :=
  match jsTruthyStr token0 with
  | some _ => 1
  | none => 2

/-- Concrete configuration used by witnesses (default probability). -/
def cfgW : Cfg := { baseUrl := "b", probUserTeamsTwice := Rat.divInt 1 4, commentsPerFeed := 3 }

/-- Concrete configuration with the double-pagination probability forced
to 1.0. -/
def cfgP1 : Cfg := { baseUrl := "b", probUserTeamsTwice := 1, commentsPerFeed := 3 }

/-- A concrete randomness stream that always draws 0. -/
def rand0 : Nat → ℚ := fun _ => 0

/-- The C7 spec test vector:
`[{updatedAt:"2024-01-01"}, {updatedAt:"2024-01-03"}, {createdAt:"2024-01-02"}]`. -/
def exTimestampItems : List Lump :=
  [{ updated_at := some "2024-01-01" },
   { updated_at := some "2024-01-03" },
   { created_at := some "2024-01-02" }]

def exTimestampFeed : Body := { lumps := some exTimestampItems }

/-- Five items with distinct positive ids. -/
def exDistinctIdsFeed : Body :=
  { lumps := some [{ id := some 10 }, { id := some 20 }, { id := some 30 },
                   { id := some 40 }, { id := some 50 }] }

/-- A duplicate id in positions 1 and 2, then two further distinct ids. -/
def exDupIdsFeed : Body :=
  { lumps := some [{ id := some 7 }, { id := some 7 }, { id := some 9 },
                   { id := some 11 }] }

/-- A single item with id 5 (failing input of the `maxIds = 0` slip). -/
def exSingleIdFeed : Body := { lumps := some [{ id := some 5 }] }

/-- A user-teams feed page with one item and a derivable cursor. -/
def feedPage1 : Body :=
  { lumps := some [{ id := some 3, updated_at := some "2024-01-02" }] }

/-- A server where login succeeds with token "abc", the who-am-I probe
returns 200, the user-teams feed has a derivable cursor, and every other
URL returns 500. -/
def envHappy (cfg : Cfg) : Env := fun u =>
  if u = loginUrl cfg then { status := 200, body := some { token := some "abc" } }
  else if u = meUrl cfg then { status := 200, body := some {} }
  else if u = userTeamsUrl cfg then { status := 200, body := some feedPage1 }
  else { status := 500 }

/-- A login response with a 2xx status other than 200 and a token in the
body. -/
def r201 : Response := { status := 201, body := some { token := some "abc" } }

/-- A server whose login endpoint answers 201 with a token. -/
def env201 : Env := fun u => if u = loginUrl cfgW then r201 else { status := 500 }

/-- A server answering 401 on the who-am-I probe and 500 elsewhere. -/
def envMe401 : Env := fun u => if u = meUrl cfgW then { status := 401 } else { status := 500 }

/-- A server answering 500 everywhere. -/
def env500 : Env := fun _ => { status := 500 }

/-- A server answering 201 on URL "a" and 204 elsewhere. -/
def envC10 : Env := fun u => if u = "a" then { status := 201 } else { status := 204 }

end ChunkyLoad

namespace ChunkyLoad

/-! ## Generic helper lemmas about the trace projections -/

theorem epReqUrls_append (e : EpName) (a b : List Ev) :
    epReqUrls e (a ++ b) = epReqUrls e a ++ epReqUrls e b := by
  simp [epReqUrls, List.filterMap_append]

theorem authSeq_append (a b : List Ev) :
    authSeq (a ++ b) = authSeq a ++ authSeq b := by
  simp [authSeq, List.filterMap_append]

theorem epReqUrls_fanout (e : EpName) (he : e ≠ EpName.comments) (cfg : Cfg)
    (ids : List Int) : epReqUrls e (hitCommentsThreads cfg ids) = [] := by
  induction ids with
  | nil => rfl
  | cons i rest ih => simpa [hitCommentsThreads, epReqUrls, Ne.symm he] using ih

theorem authSeq_fanout (cfg : Cfg) (ids : List Int) :
    authSeq (hitCommentsThreads cfg ids) = [] := by
  induction ids with
  | nil => rfl
  | cons i rest ih => simpa [hitCommentsThreads, authSeq] using ih

theorem epReqUrls_cons_req_same (e : EpName) (u : String) (tr : List Ev) :
    epReqUrls e (Ev.req (some e) u :: tr) = u :: epReqUrls e tr := by
  simp [epReqUrls]

theorem epReqUrls_cons_req_other (e e2 : EpName) (hne : e2 ≠ e) (u : String)
    (tr : List Ev) : epReqUrls e (Ev.req (some e2) u :: tr) = epReqUrls e tr := by
  simp [epReqUrls, hne]

theorem epReqUrls_cons_record (e e2 : EpName) (tr : List Ev) :
    epReqUrls e (Ev.record e2 :: tr) = epReqUrls e tr := by
  simp [epReqUrls]

theorem getFeed_trace_shape (env : Env) (cfg : Cfg) (url : String) (ep : Option EpName) :
    ∃ ids, (getFeedWithComments env cfg url ep).2 =
      Ev.req ep url ::
        ((match ep with | some e => [Ev.record e] | none => []) ++
          hitCommentsThreads cfg ids) := by
  by_cases h : (env url).status = 200
  · cases hb : (env url).body with
    | none => exact ⟨[], by simp [getFeedWithComments, h, hb, hitCommentsThreads]⟩
    | some j =>
      exact ⟨extractLumpIds j cfg.commentsPerFeed, by simp [getFeedWithComments, h, hb]⟩
  · exact ⟨[], by simp [getFeedWithComments, h, hitCommentsThreads]⟩

theorem epReqUrls_nil (e : EpName) : epReqUrls e [] = [] := rfl

theorem authSeq_nil : authSeq [] = [] := rfl

theorem authSeq_cons_record (e : EpName) (tr : List Ev) :
    authSeq (Ev.record e :: tr) = authSeq tr := by
  simp [authSeq]

theorem epReqUrls_getFeed_same (e : EpName) (he : e ≠ EpName.comments)
    (env : Env) (cfg : Cfg) (url : String) :
    epReqUrls e (getFeedWithComments env cfg url (some e)).2 = [url] := by
  obtain ⟨ids, hsh⟩ := getFeed_trace_shape env cfg url (some e)
  rw [hsh]
  simp [epReqUrls_cons_req_same, epReqUrls_cons_record,
    epReqUrls_fanout e he cfg ids]

theorem epReqUrls_getFeed_other (e e2 : EpName) (he : e ≠ EpName.comments)
    (hne : e2 ≠ e) (env : Env) (cfg : Cfg) (url : String) :
    epReqUrls e (getFeedWithComments env cfg url (some e2)).2 = [] := by
  obtain ⟨ids, hsh⟩ := getFeed_trace_shape env cfg url (some e2)
  rw [hsh]
  simp [epReqUrls_cons_req_other e e2 hne, epReqUrls_cons_record,
    epReqUrls_fanout e he cfg ids]

theorem authSeq_getFeed_latest (env : Env) (cfg : Cfg) (url : String) :
    authSeq (getFeedWithComments env cfg url (some EpName.latest)).2 = [] := by
  obtain ⟨ids, hsh⟩ := getFeed_trace_shape env cfg url (some EpName.latest)
  rw [hsh]
  simpa [authSeq, authSeq_cons_record] using authSeq_fanout cfg ids

theorem authSeq_getFeed_userTeams (env : Env) (cfg : Cfg) (url : String) :
    authSeq (getFeedWithComments env cfg url (some EpName.userTeams)).2 =
      [EpName.userTeams] := by
  obtain ⟨ids, hsh⟩ := getFeed_trace_shape env cfg url (some EpName.userTeams)
  rw [hsh]
  simpa [authSeq, authSeq_cons_record] using authSeq_fanout cfg ids

/-! ## Helper lemmas about the iteration flow -/

theorem iterContinue_aborted (env : Env) (rand : Nat → ℚ) (cfg : Cfg)
    (tok : String) (tr : List Ev) (ri : Nat) :
    (iterContinue env rand cfg tok tr ri).aborted =
      (doUsersMeRes (env (meUrl cfg))).invalidToken := by
  unfold iterContinue
  cases h : (doUsersMeRes (env (meUrl cfg))).invalidToken <;> simp [doUsersMe, h]

theorem iterThroughStep3_cached (env : Env) (rand : Nat → ℚ) (cfg : Cfg)
    (token0 : Option String) (tok : String) (htok : jsTruthyStr token0 = some tok) :
    iterThroughStep3 env rand cfg token0 =
      iterContinue env rand cfg tok
        (getFeedWithComments env cfg (latestUrl cfg) (some EpName.latest)).2 1 := by
  unfold iterThroughStep3
  rw [htok]

theorem iterThroughStep3_fresh (env : Env) (rand : Nat → ℚ) (cfg : Cfg)
    (token0 : Option String) (tok : String) (htok : jsTruthyStr token0 = none)
    (hlg : doLoginRes (env (loginUrl cfg)) = some tok)
    (hinv : (doUsersMeRes (env (meUrl cfg))).invalidToken = false) :
    iterThroughStep3 env rand cfg token0 =
      iterContinue env rand cfg tok
        ((getFeedWithComments env cfg (latestUrl cfg) (some EpName.latest)).2 ++
          (doLogin env cfg).2 ++ (doUsersMe env cfg).2) 2 := by
  unfold iterThroughStep3
  rw [htok]
  simp [doLogin, doUsersMe, hlg, hinv]

theorem iterThroughStep3_loginFail (env : Env) (rand : Nat → ℚ) (cfg : Cfg)
    (token0 : Option String) (htok : jsTruthyStr token0 = none)
    (hlg : doLoginRes (env (loginUrl cfg)) = none) :
    iterThroughStep3 env rand cfg token0 =
      { token := none, aborted := true,
        trace := (getFeedWithComments env cfg (latestUrl cfg) (some EpName.latest)).2 ++
          (doLogin env cfg).2 } := by
  unfold iterThroughStep3
  rw [htok]
  simp [doLogin, hlg]

theorem iterThroughStep3_not_aborted (env : Env) (rand : Nat → ℚ) (cfg : Cfg)
    (token0 : Option String)
    (hab : (iterThroughStep3 env rand cfg token0).aborted = false) :
    (doUsersMeRes (env (meUrl cfg))).invalidToken = false ∧
      (jsTruthyStr token0 = none → ∃ tok, doLoginRes (env (loginUrl cfg)) = some tok) := by
  cases htok : jsTruthyStr token0 with
  | some tok =>
    rw [iterThroughStep3_cached env rand cfg token0 tok htok,
      iterContinue_aborted] at hab
    exact ⟨hab, fun h => Option.noConfusion h⟩
  | none =>
    cases hlg : doLoginRes (env (loginUrl cfg)) with
    | none => rw [iterThroughStep3_loginFail env rand cfg token0 htok hlg] at hab; exact absurd hab (by simp)
    | some tok =>
      cases hinv : (doUsersMeRes (env (meUrl cfg))).invalidToken with
      | false => exact ⟨rfl, fun _ => ⟨tok, rfl⟩⟩
      | true =>
        unfold iterThroughStep3 at hab
        rw [htok] at hab
        simp [doLogin, doUsersMe, hlg, hinv] at hab

theorem doUsersMeRes_invalid_of_auth (r : Response)
    (h : r.status = 401 ∨ r.status = 403) :
    (doUsersMeRes r).invalidToken = true := by
  rcases h with h | h <;> simp [doUsersMeRes, h]

theorem doUsersMeRes_valid_of_not_auth (r : Response)
    (h1 : r.status ≠ 401) (h2 : r.status ≠ 403) :
    (doUsersMeRes r).invalidToken = false := by
  simp [doUsersMeRes, h1, h2]

theorem isFailureStatus_iff (s : Int) :
    isFailureStatus s = true ↔ (s < 200 ∨ 300 ≤ s) := by
  simp [isFailureStatus]

/-! ## Claim C6 -/

theorem recordEndpoint_foldl_invariant (rs : List Response) (b : EpBucket)
    (h1 : b.fails ≤ b.reqs) (h2 : b.durs.length = b.reqs) :
    (rs.foldl recordEndpoint b).fails ≤ (rs.foldl recordEndpoint b).reqs ∧
      (rs.foldl recordEndpoint b).durs.length = (rs.foldl recordEndpoint b).reqs := by
  induction rs generalizing b with
  | nil => exact ⟨h1, h2⟩
  | cons r rest ih =>
    refine ih (recordEndpoint b r) ?_ ?_
    · simp only [recordEndpoint]
      split <;> omega
    · simp [recordEndpoint, h2]

/-- Claim C6: for every endpoint metric bucket, after any sequence of
`recordEndpoint` operations starting from a fresh bucket, the failure
count is at most the request count, and the number of duration samples
equals the request count. -/
theorem claim_C6_bucket_invariant (rs : List Response) :
    (rs.foldl recordEndpoint {}).fails ≤ (rs.foldl recordEndpoint {}).reqs ∧
      (rs.foldl recordEndpoint {}).durs.length = (rs.foldl recordEndpoint {}).reqs :=
  recordEndpoint_foldl_invariant rs {} (by simp) (by simp)

/-! ## Claim C10 -/

/-- Claim C10: for every feed call made through `getFeedWithComments`
whose response status is anything other than exactly 200 (including 2xx
statuses such as 201 or 204), the call is still recorded in the
endpoint metrics (`Ev.record`), no comments-thread call is issued, and
the wrapper returns an empty id list and an absent cursor. -/
theorem claim_C10_feed_non200 (env : Env) (cfg : Cfg) (url : String) (e : EpName)
    (h : (env url).status ≠ 200) :
    getFeedWithComments env cfg url (some e) =
      ({ status := (env url).status, json := none, lumpIds := [], cursor := none },
        [Ev.req (some e) url, Ev.record e]) := by
  simp [getFeedWithComments, h]

theorem claim_C10_witness :
    getFeedWithComments envC10 cfgW "a" (some EpName.teamFeed) =
      ({ status := 201, json := none, lumpIds := [], cursor := none },
        [Ev.req (some EpName.teamFeed) "a", Ev.record EpName.teamFeed]) ∧
    getFeedWithComments envC10 cfgW "c" (some EpName.userTeams) =
      ({ status := 204, json := none, lumpIds := [], cursor := none },
        [Ev.req (some EpName.userTeams) "c", Ev.record EpName.userTeams]) :=
  ⟨claim_C10_feed_non200 envC10 cfgW "a" EpName.teamFeed (by decide),
   claim_C10_feed_non200 envC10 cfgW "c" EpName.userTeams (by decide)⟩

/-! ## Claim C9 -/

theorem fmtInt_zero : fmtInt (some 0) = "0" := by
  have h : jsRound 0 = 0 := by norm_num [jsRound]
  rw [show fmtInt (some 0) = toString (jsRound 0) from rfl, h]
  rfl

theorem fmtPct_zero : fmtPct (some 0) = "0.00%" := by
  have h : ⌊(0 : ℚ) * 100 * 100 + 1 / 2⌋ = 0 := by norm_num
  rw [show fmtPct (some 0) =
        toString ((⌊(0 : ℚ) * 100 * 100 + 1 / 2⌋ : ℤ) / 100) ++ "." ++
          pad2 (⌊(0 : ℚ) * 100 * 100 + 1 / 2⌋ % 100) ++ "%" from rfl, h]
  rfl

theorem fmtPct_tenth : fmtPct (some (1 / 10 : ℚ)) = "10.00%" := by
  have h : ⌊(1 / 10 : ℚ) * 100 * 100 + 1 / 2⌋ = 1000 := by norm_num
  rw [show fmtPct (some (1 / 10 : ℚ)) =
        toString ((⌊(1 / 10 : ℚ) * 100 * 100 + 1 / 2⌋ : ℤ) / 100) ++ "." ++
          pad2 (⌊(1 / 10 : ℚ) * 100 * 100 + 1 / 2⌋ % 100) ++ "%" from rfl, h]
  rfl

theorem epRowFromData_empty : epRowFromData {} = zeroRow := by
  norm_num [epRowFromData, zeroRow]

theorem failRate_ten_one :
    (epRowFromData { reqs := some 10, fails := some 1 }).failRate = 1 / 10 := by
  norm_num [epRowFromData]

/-- Counterexample to claim C9 as stated: a bucket with 0 recorded
requests renders its failure-percentage cell as "0.00%", not "-",
because `epRowFromData` defines `failRate = reqs > 0 ? fails/reqs : 0`
and `fmtPct(0)` formats the number 0. -/
theorem claim_C9_counterexample :
    epRowCells (epRowFromData {}) = ["0", "0", "0.00%", "-", "-", "-", "-"] ∧
      fmtPct (some (epRowFromData {}).failRate) ≠ "-" := by
  rw [epRowFromData_empty]
  constructor
  · simp [epRowCells, zeroRow, fmtMs, fmtInt_zero, fmtPct_zero]
  · rw [show zeroRow.failRate = 0 from rfl, fmtPct_zero]
    decide

/-- Claim C9 (amended): a bucket with 0 recorded requests (all metric
lookups absent) renders its failure-percentage cell as "0.00%" — not
"-"; division by zero still never occurs — and all four duration cells
as "-"; a bucket with 10 requests and 1 failure renders its failure
percentage as "10.00%". -/
theorem claim_C9_zero_bucket_rendering :
    (∀ d : EpMetricVals, d.reqs = none → d.fails = none → d.avg = none →
      d.p90 = none → d.p95 = none → d.max = none →
      epRowCells (epRowFromData d) = ["0", "0", "0.00%", "-", "-", "-", "-"]) ∧
    fmtPct (some (epRowFromData { reqs := some 10, fails := some 1 }).failRate) =
      "10.00%" := by
  constructor
  · intro d h1 h2 h3 h4 h5 h6
    obtain ⟨r, f, a, p, q, m⟩ := d
    simp only at h1 h2 h3 h4 h5 h6
    subst h1 h2 h3 h4 h5 h6
    rw [epRowFromData_empty]
    simp [epRowCells, zeroRow, fmtMs, fmtInt_zero, fmtPct_zero]
  · rw [failRate_ten_one, fmtPct_tenth]

theorem claim_C9_witness :
    epRowCells (epRowFromData {}) = ["0", "0", "0.00%", "-", "-", "-", "-"] ∧
      fmtPct (some (epRowFromData { reqs := some 10, fails := some 1 }).failRate) =
        "10.00%" :=
  ⟨claim_C9_zero_bucket_rendering.1 {} rfl rfl rfl rfl rfl rfl,
   claim_C9_zero_bucket_rendering.2⟩

/-! ## Claim C2 -/

/-- Counterexample to claim C2 as stated: a login response with the 2xx
status 201 and a token in the body does not yield a cached token —
`doLogin` requires status exactly 200 (`"login 200"` check), so the
session stays `NoToken` and the iteration aborts. -/
theorem claim_C2_counterexample :
    (200 ≤ r201.status ∧ r201.status < 300 ∧ bodyToken r201 = some "abc") ∧
      doLoginRes r201 = none ∧
      (iterThroughStep3 env201 rand0 cfgW none).token = none ∧
      (iterThroughStep3 env201 rand0 cfgW none).aborted = true := by
  refine ⟨by decide, by decide, ?_, ?_⟩ <;> decide

/-- Claim C2 (amended): the login operation fails (the session remains
`NoToken`, the current iteration aborts early, and the login endpoint is
hit exactly once — no retry) if and only if the response status is not
exactly 200 or the response body yields no token; every login response
with status exactly 200 and a token present in the body results in that
token being returned for caching. -/
theorem claim_C2_login_success_criterion :
    (∀ r : Response, doLoginRes r = none ↔ (r.status ≠ 200 ∨ bodyToken r = none)) ∧
    (∀ (r : Response) (t : String), r.status = 200 → bodyToken r = some t →
      doLoginRes r = some t) ∧
    (∀ (env : Env) (rand : Nat → ℚ) (cfg : Cfg),
      doLoginRes (env (loginUrl cfg)) = none →
      (iterThroughStep3 env rand cfg none).token = none ∧
        (iterThroughStep3 env rand cfg none).aborted = true ∧
        epReqUrls EpName.login (iterThroughStep3 env rand cfg none).trace =
          [loginUrl cfg]) := by
  refine ⟨?_, ?_, ?_⟩
  · intro r
    by_cases h : r.status = 200
    · cases hb : bodyToken r <;> simp [doLoginRes, h, hb]
    · simp [doLoginRes, h]
  · intro r t h hb
    simp [doLoginRes, h, hb]
  · intro env rand cfg hlg
    rw [iterThroughStep3_loginFail env rand cfg none rfl hlg]
    refine ⟨rfl, rfl, ?_⟩
    rw [epReqUrls_append,
      epReqUrls_getFeed_other EpName.login EpName.latest (by decide) (by decide)]
    simp [doLogin, epReqUrls_cons_req_same, epReqUrls_cons_record, epReqUrls_nil]

theorem claim_C2_witness :
    doLoginRes { status := 500 } = none ∧
      doLoginRes { status := 200, body := some { token := some "abc" } } = some "abc" ∧
      (iterThroughStep3 env500 rand0 cfgW none).aborted = true ∧
      epReqUrls EpName.login (iterThroughStep3 env500 rand0 cfgW none).trace =
        [loginUrl cfgW] :=
  ⟨(claim_C2_login_success_criterion.1 { status := 500 }).mpr (Or.inl (by decide)),
   claim_C2_login_success_criterion.2.1 { status := 200, body := some { token := some "abc" } }
     "abc" rfl (by decide),
   (claim_C2_login_success_criterion.2.2 env500 rand0 cfgW (by decide)).2.1,
   (claim_C2_login_success_criterion.2.2 env500 rand0 cfgW (by decide)).2.2⟩

/-! ## Claim C1 -/

/-- Claim C1: while `TokenValid`, a who-am-I probe answering 401 or 403
discards the cached token and aborts the iteration; a probe answering
any other non-2xx status keeps the cached token, does not abort, and
only raises the soft-failure signal (`ok = false`,
`invalidToken = false`); and starting from `NoToken`, a successful
login whose body carries a token leaves the session `TokenValid` with
exactly that token cached (stated for iterations whose probe does not
invalidate it again). -/
theorem claim_C1_credential_lifecycle :
    (∀ (env : Env) (rand : Nat → ℚ) (cfg : Cfg) (tok : String) (tr : List Ev) (ri : Nat),
       ((env (meUrl cfg)).status = 401 ∨ (env (meUrl cfg)).status = 403) →
       (iterContinue env rand cfg tok tr ri).token = none ∧
         (iterContinue env rand cfg tok tr ri).aborted = true) ∧
    (∀ (env : Env) (rand : Nat → ℚ) (cfg : Cfg) (tok : String) (tr : List Ev) (ri : Nat),
       isFailureStatus (env (meUrl cfg)).status = true →
       (env (meUrl cfg)).status ≠ 401 → (env (meUrl cfg)).status ≠ 403 →
       (iterContinue env rand cfg tok tr ri).token = some tok ∧
         (iterContinue env rand cfg tok tr ri).aborted = false ∧
         (doUsersMeRes (env (meUrl cfg))).ok = false ∧
         (doUsersMeRes (env (meUrl cfg))).invalidToken = false) ∧
    (∀ (env : Env) (rand : Nat → ℚ) (cfg : Cfg) (t : String),
       doLoginRes (env (loginUrl cfg)) = some t →
       (env (meUrl cfg)).status ≠ 401 → (env (meUrl cfg)).status ≠ 403 →
       (iterThroughStep3 env rand cfg none).token = some t ∧
         (iterThroughStep3 env rand cfg none).aborted = false) := by
  refine ⟨?_, ?_, ?_⟩
  · intro env rand cfg tok tr ri h
    have hinv := doUsersMeRes_invalid_of_auth (env (meUrl cfg)) h
    constructor <;> simp [iterContinue, doUsersMe, hinv]
  · intro env rand cfg tok tr ri hf h401 h403
    have hinv := doUsersMeRes_valid_of_not_auth (env (meUrl cfg)) h401 h403
    have hne : (env (meUrl cfg)).status ≠ 200 := by
      rcases (isFailureStatus_iff _).1 hf with h | h <;> omega
    refine ⟨?_, ?_, ?_, hinv⟩
    · simp [iterContinue, doUsersMe, hinv]
    · simp [iterContinue, doUsersMe, hinv]
    · simp [doUsersMeRes, h401, h403, hne]
  · intro env rand cfg t hlg h401 h403
    have hinv := doUsersMeRes_valid_of_not_auth (env (meUrl cfg)) h401 h403
    rw [iterThroughStep3_fresh env rand cfg none t rfl hlg hinv]
    constructor <;> simp [iterContinue, doUsersMe, hinv]

theorem claim_C1_witness :
    ((iterContinue envMe401 rand0 cfgW "tok" [] 1).token = none ∧
      (iterContinue envMe401 rand0 cfgW "tok" [] 1).aborted = true) ∧
    ((iterContinue env500 rand0 cfgW "tok" [] 1).token = some "tok" ∧
      (iterContinue env500 rand0 cfgW "tok" [] 1).aborted = false ∧
      (doUsersMeRes (env500 (meUrl cfgW))).ok = false ∧
      (doUsersMeRes (env500 (meUrl cfgW))).invalidToken = false) ∧
    ((iterThroughStep3 (envHappy cfgW) rand0 cfgW none).token = some "abc" ∧
      (iterThroughStep3 (envHappy cfgW) rand0 cfgW none).aborted = false) :=
  ⟨claim_C1_credential_lifecycle.1 envMe401 rand0 cfgW "tok" [] 1 (by decide),
   claim_C1_credential_lifecycle.2.1 env500 rand0 cfgW "tok" [] 1
     (by decide) (by decide) (by decide),
   claim_C1_credential_lifecycle.2.2 (envHappy cfgW) rand0 cfgW "abc"
     (by decide) (by decide) (by decide)⟩

/-! ## User-teams call-sequence lemmas (step 3) -/

theorem iterContinue_ut_urls (env : Env) (rand : Nat → ℚ) (cfg : Cfg)
    (tok : String) (tr : List Ev) (ri : Nat) (c : String)
    (hinv : (doUsersMeRes (env (meUrl cfg))).invalidToken = false)
    (hc : (getFeedWithComments env cfg (userTeamsUrl cfg) (some EpName.userTeams)).1.cursor =
      some c) :
    epReqUrls EpName.userTeams (iterContinue env rand cfg tok tr ri).trace =
      epReqUrls EpName.userTeams tr ++
        ([userTeamsUrl cfg, userTeamsAfterUrl cfg c] ++
          (if rand ri < cfg.probUserTeamsTwice then [userTeamsAfterUrl cfg c] else [])) := by
  simp only [iterContinue, doUsersMe, hinv, Bool.false_eq_true, if_false, hc]
  rw [epReqUrls_append, epReqUrls_append, epReqUrls_append, epReqUrls_append]
  rw [epReqUrls_getFeed_same EpName.userTeams (by decide),
    epReqUrls_getFeed_same EpName.userTeams (by decide)]
  rw [apply_ite (epReqUrls EpName.userTeams),
    epReqUrls_getFeed_same EpName.userTeams (by decide)]
  simp [epReqUrls_cons_req_other EpName.userTeams EpName.me (by decide),
    epReqUrls_cons_record, epReqUrls_nil]

theorem iterContinue_ut_urls_nocursor (env : Env) (rand : Nat → ℚ) (cfg : Cfg)
    (tok : String) (tr : List Ev) (ri : Nat)
    (hinv : (doUsersMeRes (env (meUrl cfg))).invalidToken = false)
    (hc : (getFeedWithComments env cfg (userTeamsUrl cfg) (some EpName.userTeams)).1.cursor =
      none) :
    epReqUrls EpName.userTeams (iterContinue env rand cfg tok tr ri).trace =
      epReqUrls EpName.userTeams tr ++ [userTeamsUrl cfg] := by
  simp only [iterContinue, doUsersMe, hinv, Bool.false_eq_true, if_false, hc]
  rw [epReqUrls_append, epReqUrls_append, epReqUrls_append]
  rw [epReqUrls_getFeed_same EpName.userTeams (by decide)]
  simp [epReqUrls_cons_req_other EpName.userTeams EpName.me (by decide),
    epReqUrls_cons_record, epReqUrls_nil]

/-! ## Claim C4 -/

/-- Claim C4: in every non-aborted iteration whose authenticated primary
feed read yields a derivable cursor `c`, with the double-pagination
probability forced to 1, step 3 issues exactly 3 requests to the
user-teams logical endpoint: the initial read, then two byte-identical
repeats whose URL embeds the cursor derived once from the first page. -/
theorem claim_C4_triple_userTeams (env : Env) (rand : Nat → ℚ) (cfg : Cfg)
    (token0 : Option String) (c : String)
    (hr : ∀ n, 0 ≤ rand n ∧ rand n < 1)
    (hp : cfg.probUserTeamsTwice = 1)
    (hab : (iterThroughStep3 env rand cfg token0).aborted = false)
    (hc : (getFeedWithComments env cfg (userTeamsUrl cfg) (some EpName.userTeams)).1.cursor =
      some c) :
    epReqUrls EpName.userTeams (iterThroughStep3 env rand cfg token0).trace =
      [userTeamsUrl cfg, userTeamsAfterUrl cfg c, userTeamsAfterUrl cfg c] := by
  obtain ⟨hinv, hlg'⟩ := iterThroughStep3_not_aborted env rand cfg token0 hab
  cases htok : jsTruthyStr token0 with
  | some tok =>
    rw [iterThroughStep3_cached env rand cfg token0 tok htok,
      iterContinue_ut_urls env rand cfg tok _ 1 c hinv hc]
    have hlt : rand 1 < cfg.probUserTeamsTwice := by rw [hp]; exact (hr 1).2
    rw [if_pos hlt,
      epReqUrls_getFeed_other EpName.userTeams EpName.latest (by decide) (by decide)]
    rfl
  | none =>
    obtain ⟨tok, hlg⟩ := hlg' htok
    rw [iterThroughStep3_fresh env rand cfg token0 tok htok hlg hinv,
      iterContinue_ut_urls env rand cfg tok _ 2 c hinv hc]
    have hlt : rand 2 < cfg.probUserTeamsTwice := by rw [hp]; exact (hr 2).2
    rw [if_pos hlt, epReqUrls_append, epReqUrls_append,
      epReqUrls_getFeed_other EpName.userTeams EpName.latest (by decide) (by decide)]
    simp [doLogin, doUsersMe,
      epReqUrls_cons_req_other EpName.userTeams EpName.login (by decide),
      epReqUrls_cons_req_other EpName.userTeams EpName.me (by decide),
      epReqUrls_cons_record, epReqUrls_nil]

theorem claim_C4_witness :
    epReqUrls EpName.userTeams
        (iterThroughStep3 (envHappy cfgP1) rand0 cfgP1 (some "tok")).trace =
      [userTeamsUrl cfgP1, userTeamsAfterUrl cfgP1 "2024-01-02",
        userTeamsAfterUrl cfgP1 "2024-01-02"] :=
  claim_C4_triple_userTeams (envHappy cfgP1) rand0 cfgP1 (some "tok") "2024-01-02"
    (fun _ => ⟨le_refl (0 : ℚ), (by decide : (0 : ℚ) < 1)⟩) rfl (by decide) (by decide)

/-! ## Claim C5 -/

/-- A randomness stream that always draws one half (above the default
double-refresh probability). -/
def randHalf : Nat → ℚ := fun _ => Rat.divInt 1 2

/-- Counterexample to claim C5 as stated: with a server whose primary
user-teams read yields a derivable cursor, there is no outcome of the
randomness source under which the iteration issues fewer than 2
user-teams requests — the first cursor-repeat is unconditional in the
source (`if (userTeamsCursor)` guards it, not the probability draw). -/
theorem claim_C5_counterexample :
    ¬ ∃ rand : Nat → ℚ,
      (∀ n, 0 ≤ rand n ∧ rand n < 1) ∧
      (epReqUrls EpName.userTeams
        (iterThroughStep3 (envHappy cfgW) rand cfgW (some "tok")).trace).length < 2 := by
  rintro ⟨rand, -, hlen⟩
  rw [iterThroughStep3_cached (envHappy cfgW) rand cfgW (some "tok") "tok" rfl,
    iterContinue_ut_urls (envHappy cfgW) rand cfgW "tok" _ 1 "2024-01-02"
      (by decide) (by decide),
    epReqUrls_getFeed_other EpName.userTeams EpName.latest (by decide) (by decide)] at hlen
  by_cases h : rand 1 < cfgW.probUserTeamsTwice
  · rw [if_pos h] at hlen
    simp at hlen
  · rw [if_neg h] at hlen
    simp at hlen

/-- Claim C5 (amended): in every non-aborted iteration whose primary
user-teams read yields a derivable cursor `c`, the first cursor-repeat
read is issued unconditionally, and only the second repeat is gated by
the configurable probability: the step-3 user-teams request sequence is
the initial read, the repeat, and — exactly when the `doTwice` draw is
below the probability — one further identical repeat. -/
theorem claim_C5_repeat_policy (env : Env) (rand : Nat → ℚ) (cfg : Cfg)
    (token0 : Option String) (c : String)
    (hab : (iterThroughStep3 env rand cfg token0).aborted = false)
    (hc : (getFeedWithComments env cfg (userTeamsUrl cfg) (some EpName.userTeams)).1.cursor =
      some c) :
    epReqUrls EpName.userTeams (iterThroughStep3 env rand cfg token0).trace =
      [userTeamsUrl cfg, userTeamsAfterUrl cfg c] ++
        (if rand (doTwiceDrawIdx token0) < cfg.probUserTeamsTwice
         then [userTeamsAfterUrl cfg c] else []) := by
  obtain ⟨hinv, hlg'⟩ := iterThroughStep3_not_aborted env rand cfg token0 hab
  cases htok : jsTruthyStr token0 with
  | some tok =>
    rw [iterThroughStep3_cached env rand cfg token0 tok htok,
      iterContinue_ut_urls env rand cfg tok _ 1 c hinv hc,
      epReqUrls_getFeed_other EpName.userTeams EpName.latest (by decide) (by decide)]
    simp [doTwiceDrawIdx, htok]
  | none =>
    obtain ⟨tok, hlg⟩ := hlg' htok
    rw [iterThroughStep3_fresh env rand cfg token0 tok htok hlg hinv,
      iterContinue_ut_urls env rand cfg tok _ 2 c hinv hc,
      epReqUrls_append, epReqUrls_append,
      epReqUrls_getFeed_other EpName.userTeams EpName.latest (by decide) (by decide)]
    simp [doLogin, doUsersMe, doTwiceDrawIdx, htok,
      epReqUrls_cons_req_other EpName.userTeams EpName.login (by decide),
      epReqUrls_cons_req_other EpName.userTeams EpName.me (by decide),
      epReqUrls_cons_record, epReqUrls_nil]

theorem claim_C5_witness :
    epReqUrls EpName.userTeams
        (iterThroughStep3 (envHappy cfgW) rand0 cfgW (some "tok")).trace =
      [userTeamsUrl cfgW, userTeamsAfterUrl cfgW "2024-01-02",
        userTeamsAfterUrl cfgW "2024-01-02"] ∧
    epReqUrls EpName.userTeams
        (iterThroughStep3 (envHappy cfgW) randHalf cfgW (some "tok")).trace =
      [userTeamsUrl cfgW, userTeamsAfterUrl cfgW "2024-01-02"] := by
  constructor
  · rw [claim_C5_repeat_policy (envHappy cfgW) rand0 cfgW (some "tok") "2024-01-02"
      (by decide) (by decide)]
    rw [if_pos (by decide : rand0 (doTwiceDrawIdx (some "tok")) < cfgW.probUserTeamsTwice)]
    simp
  · rw [claim_C5_repeat_policy (envHappy cfgW) randHalf cfgW (some "tok") "2024-01-02"
      (by decide) (by decide)]
    rw [if_neg (by decide : ¬ randHalf (doTwiceDrawIdx (some "tok")) < cfgW.probUserTeamsTwice)]
    simp

/-! ## Claim C3 -/

theorem iterContinue_authSeq (env : Env) (rand : Nat → ℚ) (cfg : Cfg)
    (tok : String) (tr : List Ev) (ri : Nat)
    (hinv : (doUsersMeRes (env (meUrl cfg))).invalidToken = false) :
    ∃ k, 1 ≤ k ∧ k ≤ 3 ∧
      authSeq (iterContinue env rand cfg tok tr ri).trace =
        authSeq tr ++ EpName.me :: List.replicate k EpName.userTeams := by
  cases hc : (getFeedWithComments env cfg (userTeamsUrl cfg) (some EpName.userTeams)).1.cursor with
  | none =>
    refine ⟨1, by omega, by omega, ?_⟩
    simp only [iterContinue, doUsersMe, hinv, Bool.false_eq_true, if_false, hc]
    rw [authSeq_append, authSeq_append, authSeq_append, authSeq_getFeed_userTeams]
    simp [authSeq, authSeq_cons_record, List.replicate]
  | some c =>
    by_cases hlt : rand ri < cfg.probUserTeamsTwice
    · refine ⟨3, by omega, by omega, ?_⟩
      simp only [iterContinue, doUsersMe, hinv, Bool.false_eq_true, if_false, hc]
      rw [if_pos hlt, authSeq_append, authSeq_append, authSeq_append, authSeq_append,
        authSeq_getFeed_userTeams, authSeq_getFeed_userTeams]
      simp [authSeq, authSeq_cons_record, List.replicate]
    · refine ⟨2, by omega, by omega, ?_⟩
      simp only [iterContinue, doUsersMe, hinv, Bool.false_eq_true, if_false, hc]
      rw [if_neg hlt, authSeq_append, authSeq_append, authSeq_append, authSeq_append,
        authSeq_getFeed_userTeams, authSeq_getFeed_userTeams]
      simp [authSeq, authSeq_cons_record, List.replicate]

/-- Counterexample to claim C3 as stated: a fresh-login iteration whose
login succeeds and whose probe never signals invalid performs the
who-am-I probe twice before the authenticated reads (once right after
login at line 461, once as the per-iteration re-hydration at line 470),
not exactly once. -/
theorem claim_C3_counterexample :
    (iterThroughStep3 (envHappy cfgW) rand0 cfgW none).aborted = false ∧
      doLoginRes (envHappy cfgW (loginUrl cfgW)) = some "abc" ∧
      (doUsersMeRes (envHappy cfgW (meUrl cfgW))).invalidToken = false ∧
      (epReqUrls EpName.me
        (iterThroughStep3 (envHappy cfgW) rand0 cfgW none).trace).length = 2 := by
  refine ⟨by decide, by decide, by decide, by decide⟩

/-- Claim C3 (amended): in every non-aborted iteration that begins with
a cached token, login is skipped and the who-am-I probe runs exactly
once before the authenticated user-teams reads; in every non-aborted
iteration that begins without a token, one login is followed by exactly
two probes (the post-login validation and the per-iteration
re-hydration) before the authenticated user-teams reads. -/
theorem claim_C3_probe_counts (env : Env) (rand : Nat → ℚ) (cfg : Cfg)
    (token0 : Option String)
    (hab : (iterThroughStep3 env rand cfg token0).aborted = false) :
    (∀ tok, jsTruthyStr token0 = some tok →
       ∃ k, 1 ≤ k ∧ k ≤ 3 ∧
         authSeq (iterThroughStep3 env rand cfg token0).trace =
           EpName.me :: List.replicate k EpName.userTeams) ∧
    (jsTruthyStr token0 = none →
       ∃ k, 1 ≤ k ∧ k ≤ 3 ∧
         authSeq (iterThroughStep3 env rand cfg token0).trace =
           EpName.login :: EpName.me :: EpName.me ::
             List.replicate k EpName.userTeams) := by
  obtain ⟨hinv, hlg'⟩ := iterThroughStep3_not_aborted env rand cfg token0 hab
  constructor
  · intro tok htok
    rw [iterThroughStep3_cached env rand cfg token0 tok htok]
    obtain ⟨k, h1, h2, h3⟩ := iterContinue_authSeq env rand cfg tok _ 1 hinv
    exact ⟨k, h1, h2, by rw [h3, authSeq_getFeed_latest]; simp⟩
  · intro htok
    obtain ⟨tok, hlg⟩ := hlg' htok
    rw [iterThroughStep3_fresh env rand cfg token0 tok htok hlg hinv]
    obtain ⟨k, h1, h2, h3⟩ := iterContinue_authSeq env rand cfg tok _ 2 hinv
    refine ⟨k, h1, h2, ?_⟩
    rw [h3, authSeq_append, authSeq_append, authSeq_getFeed_latest]
    simp [doLogin, doUsersMe, authSeq, authSeq_cons_record]

theorem claim_C3_witness :
    (∃ k, 1 ≤ k ∧ k ≤ 3 ∧
      authSeq (iterThroughStep3 (envHappy cfgW) rand0 cfgW (some "tok")).trace =
        EpName.me :: List.replicate k EpName.userTeams) ∧
    (∃ k, 1 ≤ k ∧ k ≤ 3 ∧
      authSeq (iterThroughStep3 (envHappy cfgW) rand0 cfgW none).trace =
        EpName.login :: EpName.me :: EpName.me :: List.replicate k EpName.userTeams) :=
  ⟨(claim_C3_probe_counts (envHappy cfgW) rand0 cfgW (some "tok") (by decide)).1 "tok" rfl,
   (claim_C3_probe_counts (envHappy cfgW) rand0 cfgW none (by decide)).2 rfl⟩

/-! ## Claim C7 -/

theorem foldl_newestStep_some (ls : List Lump) :
    ∀ a : String, ∃ b, ls.foldl newestStep (some a) = some b ∧
      b ∈ a :: ls.filterMap lumpTimestamp ∧
      ∀ x ∈ a :: ls.filterMap lumpTimestamp, x ≤ b := by
  induction ls with
  | nil => exact fun a => ⟨a, rfl, by simp, by simp⟩
  | cons l rest ih =>
    intro a
    cases ht : lumpTimestamp l with
    | none =>
      obtain ⟨b, h1, h2, h3⟩ := ih a
      refine ⟨b, ?_, ?_, ?_⟩
      · simpa [newestStep, ht] using h1
      · simpa [List.filterMap_cons, ht] using h2
      · intro x hx
        exact h3 x (by simpa [List.filterMap_cons, ht] using hx)
    | some t =>
      by_cases hat : a < t
      · obtain ⟨b, h1, h2, h3⟩ := ih t
        refine ⟨b, ?_, ?_, ?_⟩
        · simpa [newestStep, ht, hat] using h1
        · simp only [List.mem_cons, List.filterMap_cons, ht] at h2 ⊢
          tauto
        · intro x hx
          simp only [List.mem_cons, List.filterMap_cons, ht] at hx
          rcases hx with rfl | rfl | hx
          · exact le_trans (le_of_lt hat) (h3 t (by simp))
          · exact h3 x (by simp)
          · exact h3 x (by simp [hx])
      · obtain ⟨b, h1, h2, h3⟩ := ih a
        refine ⟨b, ?_, ?_, ?_⟩
        · simpa [newestStep, ht, hat] using h1
        · simp only [List.mem_cons, List.filterMap_cons, ht] at h2 ⊢
          tauto
        · intro x hx
          simp only [List.mem_cons, List.filterMap_cons, ht] at hx
          rcases hx with rfl | rfl | hx
          · exact h3 x (by simp)
          · exact le_trans (le_of_not_lt hat) (h3 a (by simp))
          · exact h3 x (by simp [hx])

theorem foldl_newestStep_none_iff (ls : List Lump) :
    ls.foldl newestStep none = none ↔ ls.filterMap lumpTimestamp = [] := by
  induction ls with
  | nil => simp
  | cons l rest ih =>
    cases ht : lumpTimestamp l with
    | none => simpa [newestStep, ht, List.filterMap_cons] using ih
    | some t =>
      obtain ⟨b, h1, -, -⟩ := foldl_newestStep_some rest t
      simp [newestStep, ht, List.filterMap_cons, h1]

theorem foldl_newestStep_some_char (ls : List Lump) {m : String}
    (h : ls.foldl newestStep none = some m) :
    m ∈ ls.filterMap lumpTimestamp ∧ ∀ x ∈ ls.filterMap lumpTimestamp, x ≤ m := by
  cases ls with
  | nil => simp at h
  | cons l rest =>
    cases ht : lumpTimestamp l with
    | none =>
      rw [List.foldl_cons, show newestStep none l = none from by simp [newestStep, ht]] at h
      obtain ⟨h2, h3⟩ := foldl_newestStep_some_char rest h
      constructor
      · simpa [List.filterMap_cons, ht] using h2
      · intro x hx
        exact h3 x (by simpa [List.filterMap_cons, ht] using hx)
    | some t =>
      rw [List.foldl_cons, show newestStep none l = some t from by simp [newestStep, ht]] at h
      obtain ⟨b, h1, h2, h3⟩ := foldl_newestStep_some rest t
      have hbm : b = m := by rw [h1] at h; exact Option.some.inj h
      subst hbm
      constructor
      · simpa [List.filterMap_cons, ht] using h2
      · intro x hx
        exact h3 x (by simpa [List.filterMap_cons, ht] using hx)

/-- Claim C7: for every parsed feed payload whose items carry no empty
timestamp strings, the cursor extractor returns exactly the
lexically-greatest string among the per-item timestamps, where each item
contributes its `updated_at` if present, else its `created_at`; on the
spec's three-item example it returns "2024-01-03"; and on a missing or
empty items list it returns absent (the extractor is total, so it never
throws). -/
theorem claim_C7_cursor_extraction :
    (∀ (p : Body) (ls : List Lump), p.lumps = some ls →
      (∀ l ∈ ls, l.updated_at ≠ some "" ∧ l.created_at ≠ some "") →
      ((∀ m : String, extractAfterDateFromLumps p = some m ↔
          (m ∈ ls.filterMap resolvedTs ∧ ∀ x ∈ ls.filterMap resolvedTs, x ≤ m)) ∧
        (extractAfterDateFromLumps p = none ↔ ls.filterMap resolvedTs = []))) ∧
    extractAfterDateFromLumps exTimestampFeed = some "2024-01-03" ∧
    extractAfterDateFromLumps { lumps := none } = none ∧
    extractAfterDateFromLumps { lumps := some [] } = none := by
  refine ⟨?_, ?_, rfl, by decide⟩
  · intro p ls hp hne
    have hfm : ls.filterMap lumpTimestamp = ls.filterMap resolvedTs := by
      apply List.filterMap_congr
      intro l hl
      obtain ⟨hu, hc⟩ := hne l hl
      cases h1 : l.updated_at with
      | none =>
        cases h2 : l.created_at with
        | none => simp [lumpTimestamp, resolvedTs, jsTruthyStr, h1, h2]
        | some s =>
          have hs : s ≠ "" := fun h => hc (by rw [h2, h])
          simp [lumpTimestamp, resolvedTs, jsTruthyStr, h1, h2, hs]
      | some s =>
        have hs : s ≠ "" := fun h => hu (by rw [h1, h])
        simp [lumpTimestamp, resolvedTs, jsTruthyStr, h1, hs]
    rw [← hfm]
    cases ls with
    | nil =>
      constructor
      · intro m
        simp [extractAfterDateFromLumps, hp]
      · simp [extractAfterDateFromLumps, hp]
    | cons l0 rest =>
      have hext : extractAfterDateFromLumps p = (l0 :: rest).foldl newestStep none := by
        simp [extractAfterDateFromLumps, hp]
      rw [hext]
      constructor
      · intro m
        constructor
        · intro h
          exact foldl_newestStep_some_char _ h
        · rintro ⟨hm, hub⟩
          cases hres : (l0 :: rest).foldl newestStep none with
          | none =>
            rw [foldl_newestStep_none_iff] at hres
            rw [hres] at hm
            simp at hm
          | some b =>
            obtain ⟨hb, hub2⟩ := foldl_newestStep_some_char _ hres
            rw [le_antisymm (hub2 m hm) (hub b hb)]
      · exact foldl_newestStep_none_iff _
  · have h1 : ("2024-01-01" : String) < "2024-01-03" := by
      rw [String.lt_iff_toList_lt]; decide
    have h2 : ¬ (("2024-01-03" : String) < "2024-01-02") := by
      rw [String.lt_iff_toList_lt]; decide
    simp [extractAfterDateFromLumps, exTimestampFeed, exTimestampItems, newestStep,
      lumpTimestamp, jsTruthyStr, h1, h2]

theorem claim_C7_witness :
    extractAfterDateFromLumps exTimestampFeed = some "2024-01-03" ∧
      ("2024-01-03" ∈ exTimestampItems.filterMap resolvedTs ∧
        ∀ x ∈ exTimestampItems.filterMap resolvedTs, x ≤ "2024-01-03") := by
  have hub : ∀ x ∈ exTimestampItems.filterMap resolvedTs, x ≤ "2024-01-03" := by
    intro x hx
    simp [exTimestampItems, resolvedTs, List.filterMap_cons] at hx
    rcases hx with rfl | rfl | rfl
    · rw [String.le_iff_toList_le]; decide
    · exact le_refl _
    · rw [String.le_iff_toList_le]; decide
  have hmem : "2024-01-03" ∈ exTimestampItems.filterMap resolvedTs := by decide
  exact ⟨((claim_C7_cursor_extraction.1 exTimestampFeed exTimestampItems rfl
      (by decide)).1 "2024-01-03").mpr ⟨hmem, hub⟩, hmem, hub⟩

/-! ## Claim C8 -/

theorem validIds_cons_none (l : Lump) (ls : List Lump) (h : rawId l = none) :
    validIds (l :: ls) = validIds ls := by
  simp [validIds, List.filterMap_cons, h]

theorem validIds_cons_pos (l : Lump) (ls : List Lump) (v : Int)
    (h : rawId l = some v) (hv : 0 < v) :
    validIds (l :: ls) = v :: validIds ls := by
  simp [validIds, List.filterMap_cons, h, hv]

theorem validIds_cons_nonpos (l : Lump) (ls : List Lump) (v : Int)
    (h : rawId l = some v) (hv : ¬ 0 < v) :
    validIds (l :: ls) = validIds ls := by
  simp [validIds, List.filterMap_cons, h, hv]

theorem extractLumpIdsGo_spec (maxIds : Nat) (ls : List Lump) :
    ∀ out : List Int, out.length < maxIds →
      extractLumpIdsGo maxIds ls out =
        out ++ (dedupFirstGo (validIds ls) out).take (maxIds - out.length) := by
  induction ls with
  | nil =>
    intro out h
    simp [extractLumpIdsGo, validIds, dedupFirstGo]
  | cons l rest ih =>
    intro out h
    cases hraw : rawId l with
    | none =>
      rw [show extractLumpIdsGo maxIds (l :: rest) out = extractLumpIdsGo maxIds rest out
          from by simp [extractLumpIdsGo, hraw],
        validIds_cons_none l rest hraw]
      exact ih out h
    | some v =>
      by_cases hv : v ≤ 0
      · have hnp : ¬ 0 < v := by omega
        rw [show extractLumpIdsGo maxIds (l :: rest) out = extractLumpIdsGo maxIds rest out
            from by simp [extractLumpIdsGo, hraw, hv],
          validIds_cons_nonpos l rest v hraw hnp]
        exact ih out h
      · have hpos : 0 < v := by omega
        rw [validIds_cons_pos l rest v hraw hpos]
        by_cases hmem : v ∈ out
        · rw [show extractLumpIdsGo maxIds (l :: rest) out = extractLumpIdsGo maxIds rest out
              from by simp [extractLumpIdsGo, hraw, hv, hmem],
            show dedupFirstGo (v :: validIds rest) out = dedupFirstGo (validIds rest) out
              from by simp [dedupFirstGo, hmem]]
          exact ih out h
        · rw [show dedupFirstGo (v :: validIds rest) out =
                v :: dedupFirstGo (validIds rest) (out ++ [v])
              from by simp [dedupFirstGo, hmem]]
          by_cases hstop : maxIds ≤ out.length + 1
          · have hm : maxIds - out.length = 1 := by omega
            rw [show extractLumpIdsGo maxIds (l :: rest) out = out ++ [v]
                from by simp [extractLumpIdsGo, hraw, hv, hmem, hstop], hm]
            simp
          · have h' : (out ++ [v]).length < maxIds := by
              simp only [List.length_append, List.length_cons, List.length_nil]
              omega
            rw [show extractLumpIdsGo maxIds (l :: rest) out =
                  extractLumpIdsGo maxIds rest (out ++ [v])
                from by simp [extractLumpIdsGo, hraw, hv, hmem, hstop],
              ih (out ++ [v]) h']
            have hm : maxIds - out.length = (maxIds - (out.length + 1)) + 1 := by omega
            rw [hm, List.take_succ_cons]
            simp only [List.length_append, List.length_cons, List.length_nil,
              List.append_assoc, List.singleton_append]

theorem extractLumpIds_spec (p : Body) (maxIds : Nat) (h : 1 ≤ maxIds) :
    extractLumpIds p maxIds = (dedupFirst (validIds (feedCandidates p))).take maxIds := by
  by_cases hc : (feedCandidates p).length = 0
  · have he : feedCandidates p = [] := List.length_eq_zero.mp hc
    simp [extractLumpIds, hc, he, validIds, dedupFirst, dedupFirstGo]
  · have := extractLumpIdsGo_spec maxIds (feedCandidates p) [] (by simpa using h)
    simp only [extractLumpIds, hc, if_false]
    simpa [dedupFirst] using this

/-- Claim C8: the item-id extractor takes ids in encounter order (`id`
preferred, else `lump_id`), keeps only positive ones, deduplicates
keeping first occurrences, and truncates at `maxCount` — proved as an
exact characterization for every `maxCount ≥ 1`, together with the
spec's two examples.  At `maxCount = 0` the code slips: it pushes an id
before testing the bound, so one item with id 5 yields `[5]` of length
1 > 0, contradicting the documented "up to N ids" bound. -/
theorem claim_C8_id_extraction :
    (extractLumpIds exSingleIdFeed 0 = [5] ∧
      (extractLumpIds exSingleIdFeed 0).length = 1) ∧
    (∀ (p : Body) (maxIds : Nat), 1 ≤ maxIds →
      extractLumpIds p maxIds = (dedupFirst (validIds (feedCandidates p))).take maxIds) ∧
    extractLumpIds exDistinctIdsFeed 3 = [10, 20, 30] ∧
    extractLumpIds exDupIdsFeed 3 = [7, 9, 11] :=
  ⟨by decide, fun p maxIds h => extractLumpIds_spec p maxIds h, by decide, by decide⟩

theorem claim_C8_witness :
    extractLumpIds exDistinctIdsFeed 3 =
      (dedupFirst (validIds (feedCandidates exDistinctIdsFeed))).take 3 ∧
    (dedupFirst (validIds (feedCandidates exDistinctIdsFeed))).take 3 = [10, 20, 30] :=
  ⟨claim_C8_id_extraction.2.1 exDistinctIdsFeed 3 (by decide), by decide⟩

end ChunkyLoad
